import Mathlib

/-!
Shallow embedding of eblob's `src/library/index.c` (the closed-base on-disk
index lookup core): disk-control comparators, block-table construction
(`eblob_index_blocks_fill`), the two-level search (`eblob_find_on_disk`),
sorted-index generation (`eblob_generate_sorted_index`), block-table teardown
(`eblob_index_blocks_destroy`) and the lookup coordinator
(`eblob_disk_index_lookup`).

Modelling conventions:
* machine integers are `Nat`/`Int`; byte offsets use the record sizes
  `sizeof_disk_control = 96` and `sizeof_index_block = 144` of the C structs;
* the model assumes a little-endian host, on which `eblob_bswap64` is the
  identity (eblob stores little-endian and swaps only on big-endian hosts);
* fallible allocation is passed in as explicit booleans, loops are expressed
  as fuel-based recursion with fuel chosen (and documented) to be sufficient;
* helpers that `index.c` uses but that live outside this file
  (`eblob_id_cmp`, `eblob_check_record`, the Bloom accessors, the constant
  `EBLOB_BLOB_INDEX_CORRUPT_MAX`) are modelled from the spec and marked so.
-/

set_option linter.unusedVariables false
set_option maxRecDepth 8000
set_option linter.unreachableTactic false
set_option linter.unusedTactic false

/-- Modelled from the spec: `eblob_id_cmp` (declared outside `src/`, used by all
comparators here). Spec section 3: key ordering is lexicographic on raw bytes,
equality is byte equality (memcmp semantics, sign-normalised to -1/0/1). -/
def eblob_id_cmp : List Nat → List Nat → Int
  | [], [] => 0
  | [], _ :: _ => -1
  | _ :: _, [] => 1
  | a :: as, b :: bs => if a < b then -1 else if b < a then 1 else eblob_id_cmp as bs

/-- `struct eblob_key`: opaque fixed-width byte identifier (the fixed width is
immaterial to the claims; keys are compared byte-lexicographically). -/
structure eblob_key where
  id : List Nat
deriving DecidableEq

/-- `struct eblob_disk_control`: key, flags, and the three size/offset fields. -/
structure eblob_disk_control where
  key : eblob_key
  flags : Nat
  data_size : Nat
  disk_size : Nat
  position : Nat
deriving DecidableEq

/-- Modelled from the spec: the `REMOVED` bit of the flags bitfield
(`BLOB_DISK_CTL_REMOVE`, defined outside `src/`). Its bit position is
immaterial; fixed as bit 0. -/
def BLOB_DISK_CTL_REMOVE : Nat := 1

/-- `eblob_bswap64` on a little-endian host is the identity. -/
def eblob_bswap64 (x : Nat) : Nat := x

/-- `sizeof(struct eblob_disk_control)`: 64-byte key + 4 uint64 fields. -/
def sizeof_disk_control : Nat := 96

/-- `sizeof(struct eblob_index_block)`: two 64-byte keys + 2 uint64 fields. -/
def sizeof_index_block : Nat := 144

/-- `eblob_key_sort` from index.c. -/
def eblob_key_sort (k1 k2 : eblob_key) : Int :=
  eblob_id_cmp k1.id k2.id

/-- `eblob_disk_control_sort` from index.c: compare two DCs by key only. -/
def eblob_disk_control_sort (d1 d2 : eblob_disk_control) : Int :=
  eblob_id_cmp d1.key.id d2.key.id

/-- Whether the raw (on-disk) flags word has the REMOVED bit set. -/
def dc_removed (d : eblob_disk_control) : Bool :=
  d.flags &&& BLOB_DISK_CTL_REMOVE != 0

/-- `eblob_disk_control_sort_with_flags` from index.c: key ascending, and on
equal keys REMOVED compares below LIVE. -/
def eblob_disk_control_sort_with_flags (d1 d2 : eblob_disk_control) : Int :=
  let cmp := eblob_id_cmp d1.key.id d2.key.id
  if cmp = 0 then
    if dc_removed d1 ∧ ¬ dc_removed d2 then -1
    else if ¬ dc_removed d1 ∧ dc_removed d2 then 1
    else 0
  else cmp

/-- `struct eblob_index_block`: per-block summary of the sorted index. -/
structure eblob_index_block where
  start_key : eblob_key
  end_key : eblob_key
  start_offset : Nat
  end_offset : Nat
deriving DecidableEq

/-- `eblob_key_range_cmp` from index.c: bsearch comparator that treats the
whole range `[start_key, end_key]` as the equal class. -/
def eblob_key_range_cmp (key : eblob_key) (index : eblob_index_block) : Int :=
  let cmp := eblob_id_cmp key.id index.start_key.id
  if cmp < 0 then -1
  else if cmp = 0 then 0
  else
    let cmp2 := eblob_id_cmp key.id index.end_key.id
    if cmp2 < 0 then 0
    else if cmp2 = 0 then 0
    else 1

/-- `eblob_find_non_removed_callback` from index.c: accept a DC iff its raw
flags word has the (byte-swapped) REMOVED bit unset. -/
def eblob_find_non_removed_callback (sorted dc : eblob_disk_control) : Bool :=
  !(sorted.flags &&& eblob_bswap64 BLOB_DISK_CTL_REMOVE != 0)

/-- The per-base stat slots touched by index.c (`EBLOB_LST_*`). -/
structure eblob_stat where
  bloom_size : Nat
  index_blocks_size : Nat
  records_removed : Nat
  removed_size : Nat
  index_corrupted_entries : Nat
deriving DecidableEq

/-- The two backend tunables index.c reads from `bctl->back->cfg`. -/
structure eblob_config where
  index_block_size : Nat
  index_block_bloom_length : Nat
deriving DecidableEq

/-- `struct eblob_base_ctl`, restricted to the fields index.c touches.
`sort_records` models the mmapped sorted index `sort.data`/`sort.size`
(so `sort.size = 96 * sort_records.length`); `index_blocks`/`bloom` are
`none` when the corresponding C pointer is NULL. The Bloom filter content is
modelled (from the spec) as the list of inserted keys; `back_cfg` is the
backend config reached through `bctl->back->cfg`. -/
structure eblob_base_ctl where
  index_fd : Int
  sort_fd : Int
  sort_records : List eblob_disk_control
  index_blocks : Option (List eblob_index_block)
  bloom : Option (List eblob_key)
  bloom_size : Nat
  bloom_func_num : Nat
  stat : eblob_stat
  back_cfg : eblob_config
deriving DecidableEq

/-- `eblob_index_blocks_destroy` from index.c: free both tables, NULL the
pointers, zero the two size stats, return 0. (The wrlock around the body is a
concurrency artefact with no sequential content.) -/
def eblob_index_blocks_destroy (bctl : eblob_base_ctl) : Int × eblob_base_ctl :=
  (0, { bctl with
          index_blocks := none
          bloom := none
          stat := { bctl.stat with bloom_size := 0, index_blocks_size := 0 } })

/-- Modelled from the spec: `eblob_bloom_get` (defined outside `src/`). The
spec's Bloom filter admits false positives and never gives a false negative
for an inserted key; we model the exact-membership instance (no false
positives), which satisfies that contract. Note the call sites in index.c
pass only `(bctl, key)` — no block id. -/
def eblob_bloom_get (bctl : eblob_base_ctl) (key : eblob_key) : Bool :=
  decide (key ∈ bctl.bloom.getD [])

/-- `eblob_bloom_size` from index.c, with `sort.size / sizeof(dc)` written as
the record count. -/
def eblob_bloom_size (bctl : eblob_base_ctl) : Nat :=
  let s1 := bctl.sort_records.length
  let s2 := s1 / bctl.back_cfg.index_block_size
  let s3 := s2 + 1
  let s4 := s3 * bctl.back_cfg.index_block_bloom_length
  s4 / 8

/-- `eblob_bloom_func_num` from index.c. The C source computes
`func_num = (uint8_t)(bits_per_key * 0.69)` with a double multiply and
truncating conversion; since the double nearest to 0.69 is strictly below
69/100, the truncated product equals `bits_per_key * 69 / 100` (Nat floor
division) for every product that is not an exact integer, i.e. whenever
`bits_per_key` is not a multiple of 100 — in particular throughout the
region `bits_per_key ≤ 30` where the pre-clamp value can be ≤ 20; for
multiples of 100 the pre-clamp values 68.99…/69 etc. both clamp to 20, so the
returned value agrees with the C code on all inputs with defined behaviour. -/
def eblob_bloom_func_num (bctl : eblob_base_ctl) : Nat :=
  let bits_per_key := 8 * bctl.bloom_size / bctl.sort_records.length
  let func_num := bits_per_key * 69 / 100
  if func_num = 0 then 1
  else if func_num > 20 then 20
  else func_num

/-- Modelled from the spec: `eblob_check_record` (defined outside `src/`)
performs a structural sanity check on a DC; of the checks the spec lists we
model the `disk_size ≥ data_size` component, which suffices to exhibit both
valid and invalid records. Nonzero return (−EINVAL) means invalid. -/
def eblob_check_record (dc : eblob_disk_control) : Int :=
  if dc.data_size ≤ dc.disk_size then 0 else -22

/-- Modelled from the spec: `EBLOB_BLOB_INDEX_CORRUPT_MAX` (defined outside
`src/`; spec value 100). -/
def EBLOB_BLOB_INDEX_CORRUPT_MAX : Nat := 100

/-- An all-zero key (what calloc leaves in a not-yet-assigned block field). -/
def eblob_key_zero : eblob_key := ⟨[]⟩

/-- Placeholder for the uninitialised C local `struct eblob_disk_control dc`
in `eblob_index_blocks_fill`; never read before first assignment on any
path that uses it. -/
def eblob_dc_zero : eblob_disk_control :=
  { key := eblob_key_zero, flags := 0, data_size := 0, disk_size := 0, position := 0 }

/-- Mutable state threaded through the `eblob_index_blocks_fill` loops: the
Bloom content built so far, the local counters `err_count`, `removed`,
`removed_size`, the absolute value of the `EBLOB_LST_INDEX_CORRUPTED_ENTRIES`
stat, and the C local `dc` (last record read). -/
structure FillState where
  bloom : List eblob_key
  err_count : Nat
  corrupted : Nat
  removed : Nat
  removed_size : Nat
  dcVar : eblob_disk_control
deriving DecidableEq

/-- The inner `for (i = 0; i < index_block_size && offset < size; ++i)` loop
of `eblob_index_blocks_fill`, one block's worth of records. `fuel` stands for
`index_block_size - i` (both are passed so the `i == 0` and
`i == index_block_size - 1` tests read exactly as in C); `offset` is in
records (C: bytes / 96); `sk` is the block's `start_key` field. Errors carry
the state at abort (for the corruption stat); `Except.ok` returns the new
offset, the start key and the state, whose `dcVar` holds the last record
read (the block's future `end_key`). -/
def fillInner (cfg : eblob_config) (recs : List eblob_disk_control) :
    Nat → Nat → Nat → eblob_key → FillState →
    Except (Int × FillState) (Nat × eblob_key × FillState)
  | 0, _, offset, sk, s => Except.ok (offset, sk, s)
  | fuel + 1, i, offset, sk, s =>
    match recs.get? offset with
    | none => Except.ok (offset, sk, s)
    | some dc =>
      if eblob_check_record dc ≠ 0 then
        let s1 := { s with corrupted := s.corrupted + 1, dcVar := dc }
        if s.err_count > EBLOB_BLOB_INDEX_CORRUPT_MAX ∨ i = 0 ∨
            i = cfg.index_block_size - 1 then
          Except.error (eblob_check_record dc, s1)
        else
          fillInner cfg recs fuel (i + 1) (offset + 1) sk
            { s1 with err_count := s.err_count + 1 }
      else
        let sk1 := if i = 0 then dc.key else sk
        let s1 :=
          if dc_removed dc then
            { s with removed := s.removed + 1,
                     removed_size := s.removed_size + dc.disk_size, dcVar := dc }
          else
            { s with bloom := dc.key :: s.bloom, dcVar := dc }
        fillInner cfg recs fuel (i + 1) (offset + 1) sk1 s1

/-- The outer `while (offset < bctl->sort.size)` loop of
`eblob_index_blocks_fill`, building the block list. Fuel
`recs.length + 1` is sufficient whenever `index_block_size ≥ 1`, because each
iteration then consumes at least one record; the fuel-exhaustion error (-1000)
models the C loop's failure to terminate when `index_block_size = 0`. -/
def fillLoop (cfg : eblob_config) (recs : List eblob_disk_control) :
    Nat → Nat → FillState → List eblob_index_block →
    Except (Int × FillState) (List eblob_index_block × FillState)
  | 0, offset, s, acc =>
    if offset < recs.length then Except.error (-1000, s) else Except.ok (acc, s)
  | fuel + 1, offset, s, acc =>
    if offset < recs.length then
      match fillInner cfg recs cfg.index_block_size 0 offset eblob_key_zero s with
      | Except.error e => Except.error e
      | Except.ok (offset2, sk, s2) =>
        let block : eblob_index_block :=
          { start_key := sk
            end_key := s2.dcVar.key
            start_offset := offset * sizeof_disk_control
            end_offset := offset2 * sizeof_disk_control }
        fillLoop cfg recs fuel offset2 s2 (acc ++ [block])
    else Except.ok (acc, s)

/-- `howmany(a, b)` from sys/param.h: ceiling division. -/
def howmany (a b : Nat) : Nat := (a + b - 1) / b

/-- Return value and post-state of `eblob_index_blocks_fill`. -/
structure FillResult where
  ret : Int
  bctl : eblob_base_ctl
deriving DecidableEq

/-- `eblob_index_blocks_fill` from index.c. The two calloc outcomes are passed
explicitly (`bloomAllocOk`, `blocksAllocOk`). Note two C details modelled
faithfully: on Bloom calloc failure the source executes `err = -err` while
`err` is still 0 and so returns 0; on index-blocks calloc failure it jumps to
`err_out_exit`, which does not tear down the already-allocated Bloom. -/
def eblob_index_blocks_fill (bctl0 : eblob_base_ctl)
    (bloomAllocOk blocksAllocOk : Bool) : FillResult :=
  let err0 : Int := 0
  let bctl1 := { bctl0 with bloom_size := eblob_bloom_size bctl0 }
  let bctl2 := { bctl1 with bloom_func_num := eblob_bloom_func_num bctl1 }
  if ¬ bloomAllocOk then
    { ret := -err0, bctl := bctl2 }
  else
    let bctl3 := { bctl2 with
      bloom := some [],
      stat := { bctl2.stat with bloom_size := bctl2.bloom_size } }
    let block_count := howmany bctl3.sort_records.length bctl3.back_cfg.index_block_size
    if ¬ blocksAllocOk then
      { ret := -12, bctl := bctl3 }
    else
      let bctl4 := { bctl3 with
        index_blocks := some [],
        stat := { bctl3.stat with index_blocks_size := block_count * sizeof_index_block } }
      match fillLoop bctl4.back_cfg bctl4.sort_records (bctl4.sort_records.length + 1) 0
          { bloom := [], err_count := 0,
            corrupted := bctl4.stat.index_corrupted_entries,
            removed := 0, removed_size := 0, dcVar := eblob_dc_zero } [] with
      | Except.error (e, sErr) =>
        let bctl5 := { bctl4 with
          stat := { bctl4.stat with index_corrupted_entries := sErr.corrupted } }
        { ret := e, bctl := (eblob_index_blocks_destroy bctl5).2 }
      | Except.ok (blocks, sOk) =>
        { ret := 0,
          bctl := { bctl4 with
            index_blocks := some blocks,
            bloom := some sOk.bloom,
            stat := { bctl4.stat with
              index_corrupted_entries := sOk.corrupted,
              records_removed := sOk.removed,
              removed_size := sOk.removed_size } } }

/-- The per-lookup counters of `struct eblob_disk_search_stat`. -/
structure eblob_disk_search_stat where
  loops : Nat
  no_sort : Nat
  search_on_disk : Nat
  bloom_null : Nat
  found_index_block : Nat
  no_block : Nat
  bsearch_reached : Nat
  bsearch_found : Nat
  additional_reads : Nat
deriving DecidableEq

/-- All-zero search stat (C initialises the struct to zero). -/
def eblob_search_stat_zero : eblob_disk_search_stat :=
  { loops := 0, no_sort := 0, search_on_disk := 0, bloom_null := 0,
    found_index_block := 0, no_block := 0, bsearch_reached := 0,
    bsearch_found := 0, additional_reads := 0 }

/-- glibc `bsearch` over elements `[lo, hi)` of an array accessed through
`get`, comparator applied as `compar(key, element)` with the key baked into
`cmp`. Fuel-based: each step strictly shrinks the interval, so any fuel
≥ `hi - lo + 1` makes the fuel-out and array-out-of-range branches
unreachable. Returns the index and element found. -/
def bsearchAux {α : Type} (cmp : α → Int) (get : Nat → Option α) :
    Nat → Nat → Nat → Option (Nat × α)
  | 0, _, _ => none
  | fuel + 1, lo, hi =>
    if lo < hi then
      let mid := (lo + hi) / 2
      match get mid with
      | none => none
      | some x =>
        if cmp x < 0 then bsearchAux cmp get fuel lo mid
        else if cmp x > 0 then bsearchAux cmp get fuel (mid + 1) hi
        else some (mid, x)
    else none

/-- `bsearch(key, base + lo, hi - lo, size, compar)` with sufficient fuel. -/
def c_bsearch {α : Type} (cmp : α → Int) (get : Nat → Option α) (lo hi : Nat) :
    Option (Nat × α) :=
  bsearchAux cmp get (hi - lo + 1) lo hi

/-- `eblob_index_blocks_search_nolock_bsearch_nobloom` from index.c: binary
search of the block table; the element count is read from the
`EBLOB_LST_INDEX_BLOCKS_SIZE` stat exactly as in the source. -/
def eblob_index_blocks_search_nolock_bsearch_nobloom
    (bctl : eblob_base_ctl) (dc : eblob_disk_control)
    (st : eblob_disk_search_stat) :
    Option (Nat × eblob_index_block) × eblob_disk_search_stat :=
  let nmemb := bctl.stat.index_blocks_size / sizeof_index_block
  match c_bsearch (fun blk => eblob_key_range_cmp dc.key blk)
      (fun i => (bctl.index_blocks.getD []).get? i) 0 nmemb with
  | some tb => (some tb, { st with found_index_block := st.found_index_block + 1 })
  | none => (none, st)

/-- `eblob_index_blocks_search_nolock` from index.c: Bloom probe first (keyed
by the key alone), then the block-range binary search. -/
def eblob_index_blocks_search_nolock (bctl : eblob_base_ctl)
    (dc : eblob_disk_control) (st : eblob_disk_search_stat) :
    Option (Nat × eblob_index_block) × eblob_disk_search_stat :=
  if ¬ eblob_bloom_get bctl dc.key then
    (none, { st with bloom_null := st.bloom_null + 1 })
  else
    match eblob_index_blocks_search_nolock_bsearch_nobloom bctl dc st with
    | (some tb, st1) => (some tb, st1)
    | (none, st1) => (none, { st1 with no_block := st1.no_block + 1 })

/-- The forward half of the linear expansion in `eblob_find_on_disk`:
`while (sorted < end && eblob_disk_control_sort(sorted, dc) == 0)`. Index
`idx` is the current record; fuel ≥ `recs.length + 1 - idx` makes the
fuel-out branch unreachable. -/
def fwdScan (recs : List eblob_disk_control) (dcProbe : eblob_disk_control)
    (callback : eblob_disk_control → eblob_disk_control → Bool) :
    Nat → Nat → eblob_disk_search_stat →
    Option (Nat × eblob_disk_control) × eblob_disk_search_stat
  | 0, _, st => (none, st)
  | fuel + 1, idx, st =>
    match recs.get? idx with
    | none => (none, st)
    | some r =>
      if eblob_disk_control_sort r dcProbe = 0 then
        if callback r dcProbe then (some (idx, r), st)
        else fwdScan recs dcProbe callback fuel (idx + 1)
          { st with additional_reads := st.additional_reads + 1 }
      else (none, st)

/-- The backward half of the linear expansion in `eblob_find_on_disk`:
`sorted = sorted_orig - 1; while (sorted >= start) ...`. The argument `j`
is one past the current record (so `j = 0` models `sorted < start`);
`additional_reads` is bumped at the top of each iteration, before the key
check, exactly as in C. -/
def bwdScan (recs : List eblob_disk_control) (dcProbe : eblob_disk_control)
    (callback : eblob_disk_control → eblob_disk_control → Bool) :
    Nat → eblob_disk_search_stat →
    Option (Nat × eblob_disk_control) × eblob_disk_search_stat
  | 0, st => (none, st)
  | j + 1, st =>
    let st1 := { st with additional_reads := st.additional_reads + 1 }
    match recs.get? j with
    | none => (none, st1)
    | some r =>
      if eblob_disk_control_sort r dcProbe ≠ 0 then (none, st1)
      else if callback r dcProbe then (some (j, r), st1)
      else bwdScan recs dcProbe callback j st1

/-- The whole linear-expansion phase of `eblob_find_on_disk` after a binary
search hit at index `hit`: forward scan first, then (only if it found
nothing) backward from `hit - 1`. -/
def eblob_find_expand (recs : List eblob_disk_control)
    (dcProbe : eblob_disk_control)
    (callback : eblob_disk_control → eblob_disk_control → Bool)
    (hit : Nat) (st : eblob_disk_search_stat) :
    Option (Nat × eblob_disk_control) × eblob_disk_search_stat :=
  match fwdScan recs dcProbe callback (recs.length + 1) hit st with
  | (some res, st1) => (some res, st1)
  | (none, st1) => bwdScan recs dcProbe callback hit st1

/-- `eblob_find_on_disk` from index.c: block search (Bloom-gated), intra-block
binary search of `num = min(index_block_size, records from block start)`
records starting at the block's start offset, then linear expansion. Returns
the index and content of the accepted record. -/
def eblob_find_on_disk (cfg : eblob_config) (bctl : eblob_base_ctl)
    (dcProbe : eblob_disk_control)
    (callback : eblob_disk_control → eblob_disk_control → Bool)
    (st0 : eblob_disk_search_stat) :
    Option (Nat × eblob_disk_control) × eblob_disk_search_stat :=
  let st := { st0 with search_on_disk := st0.search_on_disk + 1 }
  match eblob_index_blocks_search_nolock bctl dcProbe st with
  | (none, st1) => (none, st1)
  | (some (_, block), st1) =>
    let st2 := { st1 with bsearch_reached := st1.bsearch_reached + 1 }
    let startIdx := block.start_offset / sizeof_disk_control
    let num0 := bctl.sort_records.length - startIdx
    let num := if num0 > cfg.index_block_size then cfg.index_block_size else num0
    match c_bsearch (fun r => eblob_disk_control_sort dcProbe r)
        (fun i => bctl.sort_records.get? i) startIdx (startIdx + num) with
    | none => (none, st2)
    | some (hit, _) =>
      let st3 := { st2 with bsearch_found := st2.bsearch_found + 1 }
      eblob_find_expand bctl.sort_records dcProbe callback hit st3

/-- The ordering `qsort` is given in `eblob_generate_sorted_index`:
comparator result ≤ 0. -/
def dc_le (d1 d2 : eblob_disk_control) : Prop :=
  eblob_disk_control_sort_with_flags d1 d2 ≤ 0

instance : DecidableRel dc_le := fun d1 d2 => by
  unfold dc_le; infer_instance

/-- `eblob_generate_sorted_index` from index.c, success path: the published
sorted mapping is the source index copied and sorted in place by
`qsort(..., eblob_disk_control_sort_with_flags)`. qsort produces some
permutation of its input ordered by the comparator; we model it with
insertion sort, which has exactly those two properties. The file plumbing
(open/mmap/preallocate/msync/rename) and its error paths do not affect the
published record array and are elided. -/
def eblob_generate_sorted_index (src : List eblob_disk_control) :
    List eblob_disk_control :=
  src.insertionSort dc_le

/-- The result descriptor fields of `struct eblob_ram_control` filled by
`eblob_disk_index_lookup` (the `bctl` back-reference is a pointer and is
dropped from the model). -/
structure eblob_ram_control where
  data_offset : Nat
  index_offset : Nat
  size : Nat
deriving DecidableEq

/-- `eblob_convert_disk_control` byte-swaps every field; identity on a
little-endian host. -/
def eblob_convert_disk_control (dc : eblob_disk_control) : eblob_disk_control := dc

/-- Outcome of one traversal of the base list inside
`eblob_disk_index_lookup`: a hit, a full miss, or an aborted traversal after
grabbing a bctl whose `index_fd < 0` (invalidated by concurrent data-sort). -/
inductive AttemptResult where
  | hit : eblob_ram_control → eblob_disk_search_stat → AttemptResult
  | miss : eblob_disk_search_stat → AttemptResult
  | invalidated : eblob_disk_search_stat → AttemptResult
deriving DecidableEq

/-- One traversal of the base list (newest first — the source iterates
`b->bases` with `list_for_each_entry_reverse`; the model's list is already
in newest-first order). Holds/releases are concurrency artefacts elided by
the sequential model. -/
def lookupAttempt (key : eblob_key) :
    List eblob_base_ctl → eblob_disk_search_stat → AttemptResult
  | [], st => AttemptResult.miss st
  | bctl :: rest, st =>
    let st1 := { st with loops := st.loops + 1 }
    if bctl.index_fd < 0 then AttemptResult.invalidated st1
    else if bctl.sort_fd < 0 then
      lookupAttempt key rest { st1 with no_sort := st1.no_sort + 1 }
    else
      match eblob_find_on_disk bctl.back_cfg bctl { eblob_dc_zero with key := key }
          eblob_find_non_removed_callback st1 with
      | (none, st2) => lookupAttempt key rest st2
      | (some (idx, dcHit), st2) =>
        let dcConv := eblob_convert_disk_control dcHit
        AttemptResult.hit
          { data_offset := dcConv.position
            index_offset := idx * sizeof_disk_control
            size := dcConv.data_size } st2

/-- `max_tries` from `eblob_disk_index_lookup`. -/
def eblob_disk_index_lookup_max_tries : Nat := 10

/-- The `again:` retry structure of `eblob_disk_index_lookup`. The environment
is a `schedule` giving the base list observed by each traversal attempt (a
concurrent data-sort may change it between attempts). On an invalidated bctl
the source runs `if (tries++ > max_tries) return -EDEADLK; goto again;`: the
pre-increment value of `tries` is compared, then the traversal restarts from
the newest base. Fuel `max_tries + 2 = 12` covers the longest possible chain
(tries 0 through 11), so the fuel-out branch is unreachable. -/
def lookupGo (key : eblob_key) (schedule : Nat → List eblob_base_ctl) :
    Nat → Nat → Nat → eblob_disk_search_stat →
    Int × Option eblob_ram_control × eblob_disk_search_stat
  | 0, _, _, st => (-35, none, st)
  | fuel + 1, tries, attempt, st =>
    match lookupAttempt key (schedule attempt) st with
    | AttemptResult.hit rctl st1 => (0, some rctl, st1)
    | AttemptResult.miss st1 => (-2, none, st1)
    | AttemptResult.invalidated st1 =>
      if tries > eblob_disk_index_lookup_max_tries then (-35, none, st1)
      else lookupGo key schedule fuel (tries + 1) (attempt + 1) st1

/-- `eblob_disk_index_lookup` from index.c: returns the C error code
(0 = hit, -ENOENT = miss, -EDEADLK = retry budget exhausted), the result
descriptor if any, and the search stat. -/
def eblob_disk_index_lookup (schedule : Nat → List eblob_base_ctl)
    (key : eblob_key) :
    Int × Option eblob_ram_control × eblob_disk_search_stat :=
  lookupGo key schedule (eblob_disk_index_lookup_max_tries + 2) 0 0
    eblob_search_stat_zero

/-! ## Concrete instances and claim-side definitions used by the theorems -/

/-- A typical backend config (default block size 40). -/
def cfgEx : eblob_config := { index_block_size := 40, index_block_bloom_length := 128 }

/-- All-zero per-base stat. -/
def statZero : eblob_stat :=
  { bloom_size := 0, index_blocks_size := 0, records_removed := 0, removed_size := 0,
    index_corrupted_entries := 0 }

/-- A fresh BCTL (valid fds, no tables built yet) over the given records. -/
def mkBctl (recs : List eblob_disk_control) (cfg : eblob_config := cfgEx) : eblob_base_ctl :=
  { index_fd := 3, sort_fd := 4, sort_records := recs, index_blocks := none, bloom := none,
    bloom_size := 0, bloom_func_num := 0, stat := statZero, back_cfg := cfg }

/-- A tombstone (REMOVED) record for key bytes `kb`. -/
def c1_tomb (kb : List Nat) : eblob_disk_control :=
  { key := ⟨kb⟩, flags := 1, data_size := 5, disk_size := 10, position := 7 }

/-- A live record for key bytes `kb` at data-file position `p`. -/
def c1_live (kb : List Nat) (p : Nat) : eblob_disk_control :=
  { key := ⟨kb⟩, flags := 0, data_size := 5, disk_size := 10, position := p }

/-- Newer base: its sorted index holds only a tombstone for key `kb`;
block table and Bloom built by `eblob_index_blocks_fill`. -/
def c1_newer (kb : List Nat) : eblob_base_ctl :=
  (eblob_index_blocks_fill (mkBctl [c1_tomb kb]) true true).bctl

/-- Older base: its sorted index holds a live record for key `kb` at
position `p`; block table and Bloom built by `eblob_index_blocks_fill`. -/
def c1_older (kb : List Nat) (p : Nat) : eblob_base_ctl :=
  (eblob_index_blocks_fill (mkBctl [c1_live kb p]) true true).bctl

/-- Base used for the allocation-failure claim. -/
def c2_base : eblob_base_ctl := mkBctl [c1_live [3] 42]

/-- A structurally invalid record: `disk_size < data_size` fails
`eblob_check_record`. -/
def dcBad : eblob_disk_control :=
  { key := ⟨[9]⟩, flags := 0, data_size := 10, disk_size := 5, position := 0 }

/-- Config with one 103-record block (so 101 corrupt records fit strictly
inside a block). -/
def cfg103 : eblob_config := { index_block_size := 103, index_block_bloom_length := 128 }

/-- Config with one 104-record block. -/
def cfg104 : eblob_config := { index_block_size := 104, index_block_bloom_length := 128 }

/-- Two-record blocks. -/
def cfg2 : eblob_config := { index_block_size := 2, index_block_bloom_length := 128 }

/-- 103 records: valid, then 101 corrupt (inner positions 1..101 of a
103-record block), then valid. -/
def c3_recs_101 : List eblob_disk_control :=
  [c1_live [1] 11] ++ List.replicate 101 dcBad ++ [c1_live [8] 18]

/-- 104 records: valid, then 102 corrupt (inner positions 1..102 of a
104-record block), then valid. -/
def c3_recs_102 : List eblob_disk_control :=
  [c1_live [1] 11] ++ List.replicate 102 dcBad ++ [c1_live [8] 18]

/-- Base whose block has 101 corrupt records strictly inside it. -/
def c3_base_101 : eblob_base_ctl := mkBctl c3_recs_101 cfg103

/-- Base whose block has 102 corrupt records strictly inside it. -/
def c3_base_102 : eblob_base_ctl := mkBctl c3_recs_102 cfg104

/-- Base whose first record (inner position 0 of its block) is corrupt. -/
def c3_base_first : eblob_base_ctl := mkBctl [dcBad, c1_live [3] 13]

/-- Base whose second record sits at inner position `index_block_size - 1`
of its block and is corrupt. -/
def c3_base_last : eblob_base_ctl := mkBctl [c1_live [1] 11, dcBad, c1_live [8] 18] cfg2

/-- Base with two live keys [1] and [5] in one block: its only index block
has range [[1], [5]], and its Bloom holds exactly those two keys. -/
def c4_base : eblob_base_ctl :=
  (eblob_index_blocks_fill (mkBctl [c1_live [1] 10, c1_live [5] 20]) true true).bctl

/-- Probe DC for key [3] (a key inside c4_base's block range but not in its
Bloom). -/
def probe3 : eblob_disk_control := { eblob_dc_zero with key := ⟨[3]⟩ }

/-- Base giving `bits_per_key = 8 * 10 / 8 = 10`. -/
def c8_base : eblob_base_ctl :=
  { mkBctl (List.replicate 8 (c1_live [3] 42)) with bloom_size := 10 }

/-- The hash-function count exactly as the claim words it:
`clamp(round(bits_per_key * ln 2), 1, 20)` with the constant 0.69 standing
for ln 2 and `round` rounding to the nearest integer. -/
def eblob_bloom_func_num_claim (bctl : eblob_base_ctl) : Nat :=
  let bits_per_key := 8 * bctl.bloom_size / bctl.sort_records.length
  max 1 (min 20 ((bits_per_key * 69 + 50) / 100))

/-- A base invalidated by a concurrent data-sort (`index_fd < 0`). -/
def c9_bad_base : eblob_base_ctl := { mkBctl [c1_live [3] 42] with index_fd := -1 }

/-- Schedule on which every traversal attempt sees only the invalidated
base. -/
def c9_schedule : Nat → List eblob_base_ctl := fun _ => [c9_bad_base]

/-- Record at index `j` (all uses are in bounds; the default is never hit in
any reachable statement). -/
def recAt (recs : List eblob_disk_control) (j : Nat) : eblob_disk_control :=
  recs.getD j eblob_dc_zero

/-- The record at index `m` has the probe's key. -/
def KeyMatch (recs : List eblob_disk_control) (probe : eblob_disk_control) (m : Nat) : Prop :=
  eblob_disk_control_sort (recAt recs m) probe = 0

/-- The forward scan from `hit` accepts index `j`: `j` is in bounds, every
index from `hit` through `j` carries the probe's key (the scan never crossed
a key boundary), the callback accepts `j`, and rejected every index of the
run before `j`. -/
def FwdAccepts (recs : List eblob_disk_control) (probe : eblob_disk_control)
    (cb : eblob_disk_control → eblob_disk_control → Bool) (hit j : Nat) : Prop :=
  hit ≤ j ∧ j < recs.length ∧
  (∀ m, hit ≤ m → m ≤ j → KeyMatch recs probe m) ∧
  cb (recAt recs j) probe = true ∧
  (∀ m, hit ≤ m → m < j → cb (recAt recs m) probe = false)

/-- The forward scan from `hit` exhausts the equal-key run without an
acceptance: every in-bounds index reachable from `hit` through an unbroken
run of the probe's key is rejected by the callback. -/
def FwdExhausted (recs : List eblob_disk_control) (probe : eblob_disk_control)
    (cb : eblob_disk_control → eblob_disk_control → Bool) (hit : Nat) : Prop :=
  ∀ j, hit ≤ j → j < recs.length →
    (∀ m, hit ≤ m → m ≤ j → KeyMatch recs probe m) →
    cb (recAt recs j) probe = false

/-- The backward scan from `hit - 1` accepts index `j`: `j < hit`, every index
from `j` up to (excluding) `hit` carries the probe's key, the callback accepts
`j` and rejected every index of the run strictly between `j` and `hit`. -/
def BwdAccepts (recs : List eblob_disk_control) (probe : eblob_disk_control)
    (cb : eblob_disk_control → eblob_disk_control → Bool) (hit j : Nat) : Prop :=
  j < hit ∧
  (∀ m, j ≤ m → m < hit → KeyMatch recs probe m) ∧
  cb (recAt recs j) probe = true ∧
  (∀ m, j < m → m < hit → cb (recAt recs m) probe = false)

/-- The backward scan from `hit - 1` exhausts without an acceptance. -/
def BwdExhausted (recs : List eblob_disk_control) (probe : eblob_disk_control)
    (cb : eblob_disk_control → eblob_disk_control → Bool) (hit : Nat) : Prop :=
  ∀ j, j < hit →
    (∀ m, j ≤ m → m < hit → KeyMatch recs probe m) →
    cb (recAt recs j) probe = false

/-- Records for the C5 witness: an equal-key run [tombstone, live] for key
[3] (spec scenario 2). -/
def c5_recs : List eblob_disk_control := [c1_tomb [3], c1_live [3] 42]

/-- A sorted 10-record base over config with 4-record blocks, for the C7
witness (spec scenario 1 layout). -/
def cfg4 : eblob_config := { index_block_size := 4, index_block_bloom_length := 128 }

/-- Ten live records with ascending one-byte keys [1] .. [10]. -/
def c7_recs : List eblob_disk_control :=
  (List.range 10).map (fun i => c1_live [i + 1] (100 + i))

/-- The C7 witness base. -/
def c7_base : eblob_base_ctl := mkBctl c7_recs cfg4
/-! ## Theorems -/

theorem eblob_id_cmp_self (l : List Nat) : eblob_id_cmp l l = 0 := by
  induction l with
  | nil => rfl
  | cons a as ih => simp [eblob_id_cmp, ih]

theorem eblob_id_cmp_eq_zero_iff : ∀ a b : List Nat, eblob_id_cmp a b = 0 ↔ a = b
  | [], [] => by simp [eblob_id_cmp]
  | [], _ :: _ => by simp [eblob_id_cmp]
  | _ :: _, [] => by simp [eblob_id_cmp]
  | a :: as, b :: bs => by
    have ih := eblob_id_cmp_eq_zero_iff as bs
    simp only [eblob_id_cmp, List.cons.injEq]
    split_ifs with h1 h2
    · constructor
      · intro h; exact absurd h (by decide)
      · intro h; omega
    · constructor
      · intro h; exact absurd h (by decide)
      · intro h; omega
    · have hab : a = b := by omega
      simp [hab, ih]

theorem eblob_id_cmp_cases : ∀ a b : List Nat,
    eblob_id_cmp a b = -1 ∨ eblob_id_cmp a b = 0 ∨ eblob_id_cmp a b = 1
  | [], [] => by simp [eblob_id_cmp]
  | [], _ :: _ => by simp [eblob_id_cmp]
  | _ :: _, [] => by simp [eblob_id_cmp]
  | a :: as, b :: bs => by
    have ih := eblob_id_cmp_cases as bs
    simp only [eblob_id_cmp]
    split_ifs <;> simp [ih]

theorem eblob_id_cmp_antisymm : ∀ a b : List Nat, eblob_id_cmp b a = - eblob_id_cmp a b
  | [], [] => by simp [eblob_id_cmp]
  | [], _ :: _ => by simp [eblob_id_cmp]
  | _ :: _, [] => by simp [eblob_id_cmp]
  | a :: as, b :: bs => by
    have ih := eblob_id_cmp_antisymm as bs
    rcases Nat.lt_trichotomy a b with h | h | h
    · rw [show eblob_id_cmp (a :: as) (b :: bs) = -1 from by
        simp only [eblob_id_cmp]; rw [if_pos h]]
      simp only [eblob_id_cmp]
      rw [if_neg (by omega), if_pos h]
      decide
    · subst h
      simp only [eblob_id_cmp]
      rw [if_neg (by omega), if_neg (by omega), if_neg (by omega), if_neg (by omega), ih]
    · rw [show eblob_id_cmp (a :: as) (b :: bs) = 1 from by
        simp only [eblob_id_cmp]; rw [if_neg (by omega), if_pos h]]
      simp only [eblob_id_cmp]
      rw [if_pos h]

theorem eblob_id_cmp_lt_trans : ∀ a b c : List Nat,
    eblob_id_cmp a b = -1 → eblob_id_cmp b c = -1 → eblob_id_cmp a c = -1
  | [], [], _ => by simp [eblob_id_cmp]
  | [], _ :: _, [] => by simp [eblob_id_cmp]
  | [], _ :: _, _ :: _ => by simp [eblob_id_cmp]
  | _ :: _, [], _ => by simp [eblob_id_cmp]
  | _ :: _, _ :: _, [] => by simp [eblob_id_cmp]
  | a :: as, b :: bs, c :: cs => by
    have ih := eblob_id_cmp_lt_trans as bs cs
    intro h1 h2
    simp only [eblob_id_cmp] at h1 h2 ⊢
    rcases Nat.lt_trichotomy a b with hab | hab | hab
    · rcases Nat.lt_trichotomy b c with hbc | hbc | hbc
      · rw [if_pos (by omega)]
      · subst hbc; rw [if_pos hab]
      · rw [if_neg (by omega), if_pos hbc] at h2; exact absurd h2 (by decide)
    · subst hab
      rw [if_neg (by omega), if_neg (by omega)] at h1
      rcases Nat.lt_trichotomy a c with hac | hac | hac
      · rw [if_pos hac]
      · subst hac
        rw [if_neg (by omega), if_neg (by omega)] at h2
        rw [if_neg (by omega), if_neg (by omega)]
        exact ih h1 h2
      · rw [if_neg (by omega), if_pos hac] at h2; exact absurd h2 (by decide)
    · rw [if_neg (by omega), if_pos hab] at h1; exact absurd h1 (by decide)

theorem eblob_id_cmp_le_trans {a b c : List Nat}
    (h1 : eblob_id_cmp a b ≤ 0) (h2 : eblob_id_cmp b c ≤ 0) :
    eblob_id_cmp a c ≤ 0 := by
  rcases eblob_id_cmp_cases a b with hab | hab | hab
  · rcases eblob_id_cmp_cases b c with hbc | hbc | hbc
    · simp [eblob_id_cmp_lt_trans a b c hab hbc]
    · have hbc2 : b = c := (eblob_id_cmp_eq_zero_iff b c).mp hbc
      subst hbc2; simp [hab]
    · omega
  · have hab2 : a = b := (eblob_id_cmp_eq_zero_iff a b).mp hab
    subst hab2; exact h2
  · omega

/-- C10: eblob_index_blocks_destroy is total and always returns 0; afterwards
the BCTL's index_blocks and bloom pointers are NULL and the bloom-size and
index-blocks-size stats are 0; destroying an already-destroyed (or
never-built) BCTL is safe and produces the identical result and state. -/
theorem eblob_index_blocks_destroy_total_idempotent (bctl : eblob_base_ctl) :
    (eblob_index_blocks_destroy bctl).1 = 0 ∧
    (eblob_index_blocks_destroy bctl).2.index_blocks = none ∧
    (eblob_index_blocks_destroy bctl).2.bloom = none ∧
    (eblob_index_blocks_destroy bctl).2.stat.bloom_size = 0 ∧
    (eblob_index_blocks_destroy bctl).2.stat.index_blocks_size = 0 ∧
    eblob_index_blocks_destroy (eblob_index_blocks_destroy bctl).2 =
      eblob_index_blocks_destroy bctl :=
  ⟨rfl, rfl, rfl, rfl, rfl, rfl⟩

/-- C2 (code bug): on Bloom calloc failure `eblob_index_blocks_fill` executes
`err = -err` while `err` is still 0 and so reports success (0), leaving no
Bloom; on index-blocks calloc failure it reports -ENOMEM but jumps past the
teardown, leaving the Bloom pointer set and the bloom-size stat nonzero. -/
theorem eblob_index_blocks_fill_alloc_failure_behaviour :
    ((eblob_index_blocks_fill c2_base false true).ret = 0 ∧
     (eblob_index_blocks_fill c2_base false true).bctl.bloom = none) ∧
    ((eblob_index_blocks_fill c2_base true false).ret = -12 ∧
     (eblob_index_blocks_fill c2_base true false).bctl.bloom = some [] ∧
     (eblob_index_blocks_fill c2_base true false).bctl.stat.bloom_size = 16) := by
  decide

/-- C8 counterexample: with bloom_size = 10 and 8 records, bits_per_key = 10,
so the claim formula clamp(round(10 × 0.69), 1, 20) gives 7, but the code's
truncating computation gives 6. -/
theorem eblob_bloom_func_num_counterexample :
    eblob_bloom_func_num c8_base = 6 ∧ eblob_bloom_func_num_claim c8_base = 7 := by
  decide

/-- C8 amended: for a base with at least one record the hash-function count
equals clamp(trunc(bits_per_key × 0.69), 1, 20) — truncation toward zero, not
rounding to nearest — and in particular always lies in [1, 20]. -/
theorem eblob_bloom_func_num_trunc_clamped (bctl : eblob_base_ctl)
    (h : 1 ≤ bctl.sort_records.length) :
    eblob_bloom_func_num bctl =
      max 1 (min 20 (8 * bctl.bloom_size / bctl.sort_records.length * 69 / 100)) ∧
    1 ≤ eblob_bloom_func_num bctl ∧ eblob_bloom_func_num bctl ≤ 20 := by
  simp only [eblob_bloom_func_num]
  split_ifs <;> omega

/-- Witness for the C8 amended theorem at `c8_base`. -/
theorem eblob_bloom_func_num_trunc_clamped_witness :
    eblob_bloom_func_num c8_base =
      max 1 (min 20 (8 * c8_base.bloom_size / c8_base.sort_records.length * 69 / 100)) ∧
    1 ≤ eblob_bloom_func_num c8_base ∧ eblob_bloom_func_num c8_base ≤ 20 :=
  eblob_bloom_func_num_trunc_clamped c8_base (by decide)

/-- C3 counterexample: a block with 101 corrupt records strictly inside it
(cumulative corruption count 101 > 100 = EBLOB_BLOB_INDEX_CORRUPT_MAX) does
NOT abort block-table construction: the claim says fill must fail once the
count exceeds 100, but the source checks the pre-increment value
(`err_count++ > EBLOB_BLOB_INDEX_CORRUPT_MAX`), so the 101st corruption is
still skipped and the build succeeds. -/
theorem eblob_index_blocks_fill_survives_101_corruptions :
    (eblob_index_blocks_fill c3_base_101 true true).ret = 0 ∧
    (eblob_index_blocks_fill c3_base_101 true true).bctl.stat.index_corrupted_entries = 101 ∧
    (eblob_index_blocks_fill c3_base_101 true true).bctl.index_blocks ≠ none := by
  decide

/-- C3 amended: a corrupt record is counted, skipped and construction
continues unless it sits at inner position 0 or index_block_size - 1 of its
block, or the count before increment already exceeds 100 — so the abort on
count alone first fires at the 102nd corrupt record, and on abort the block
table and Bloom are torn down and the record-validation error is returned. -/
theorem eblob_index_blocks_fill_corruption_boundary :
    ((eblob_index_blocks_fill c3_base_101 true true).ret = 0 ∧
     (eblob_index_blocks_fill c3_base_101 true true).bctl.stat.index_corrupted_entries = 101) ∧
    ((eblob_index_blocks_fill c3_base_102 true true).ret = -22 ∧
     (eblob_index_blocks_fill c3_base_102 true true).bctl.index_blocks = none ∧
     (eblob_index_blocks_fill c3_base_102 true true).bctl.bloom = none ∧
     (eblob_index_blocks_fill c3_base_102 true true).bctl.stat.bloom_size = 0 ∧
     (eblob_index_blocks_fill c3_base_102 true true).bctl.stat.index_blocks_size = 0) ∧
    ((eblob_index_blocks_fill c3_base_first true true).ret = -22 ∧
     (eblob_index_blocks_fill c3_base_first true true).bctl.index_blocks = none ∧
     (eblob_index_blocks_fill c3_base_first true true).bctl.stat.index_corrupted_entries = 1) ∧
    ((eblob_index_blocks_fill c3_base_last true true).ret = -22 ∧
     (eblob_index_blocks_fill c3_base_last true true).bctl.index_blocks = none ∧
     (eblob_index_blocks_fill c3_base_last true true).bctl.stat.index_corrupted_entries = 1) := by
  decide

/-- C4 counterexample: in `c4_base` the key [3] lies inside the only block's
range [[1],[5]] — the standalone block-range bsearch finds block 0 — yet the
executed search (`eblob_index_blocks_search_nolock`) answers the Bloom probe
first, keyed by the key alone: it returns miss with bloom_null = 1 while
found_index_block stays 0, i.e. the Bloom is consulted before (not after) the
block-range binary search and no block id enters the probe. -/
theorem eblob_index_blocks_search_bloom_order_counterexample :
    (eblob_index_blocks_search_nolock c4_base probe3 eblob_search_stat_zero).1 = none ∧
    (eblob_index_blocks_search_nolock c4_base probe3 eblob_search_stat_zero).2.bloom_null = 1 ∧
    (eblob_index_blocks_search_nolock c4_base probe3 eblob_search_stat_zero).2.found_index_block = 0 ∧
    (eblob_index_blocks_search_nolock_bsearch_nobloom c4_base probe3
        eblob_search_stat_zero).1.map Prod.fst = some 0 := by
  decide

/-- C4 amended: the Bloom filter is queried before the block-range binary
search, keyed by the probe key alone; a negative Bloom answer returns miss
immediately — bumping bloom_null and leaving bsearch_reached,
found_index_block and bsearch_found untouched — without attempting either the
block-range or the intra-block binary search. -/
theorem eblob_find_on_disk_bloom_negative_short_circuit
    (cfg : eblob_config) (bctl : eblob_base_ctl) (probe : eblob_disk_control)
    (cb : eblob_disk_control → eblob_disk_control → Bool)
    (st : eblob_disk_search_stat)
    (h : eblob_bloom_get bctl probe.key = false) :
    eblob_find_on_disk cfg bctl probe cb st =
      (none, { st with search_on_disk := st.search_on_disk + 1,
                       bloom_null := st.bloom_null + 1 }) := by
  simp [eblob_find_on_disk, eblob_index_blocks_search_nolock, h]

/-- Witness for the C4 amended theorem: key [3] is Bloom-negative in
`c4_base`, and the search misses with only search_on_disk and bloom_null
bumped. -/
theorem eblob_find_on_disk_bloom_negative_short_circuit_witness :
    eblob_find_on_disk cfgEx c4_base probe3 eblob_find_non_removed_callback
        eblob_search_stat_zero =
      (none, { eblob_search_stat_zero with search_on_disk := 1, bloom_null := 1 }) :=
  eblob_find_on_disk_bloom_negative_short_circuit cfgEx c4_base probe3
    eblob_find_non_removed_callback eblob_search_stat_zero (by decide)

/-- C1 counterexample: key [3] has a REMOVED DC in the newer base and a LIVE
DC (position 42) in the older base, yet `eblob_disk_index_lookup` returns 0
(hit) with the older base's descriptor — not miss as the claim states. -/
theorem eblob_disk_index_lookup_tombstone_counterexample :
    (eblob_disk_index_lookup (fun _ => [c1_newer [3], c1_older [3] 42]) ⟨[3]⟩).1 = 0 ∧
    (eblob_disk_index_lookup (fun _ => [c1_newer [3], c1_older [3] 42]) ⟨[3]⟩).2.1 =
      some { data_offset := 42, index_offset := 0, size := 5 } := by
  decide

/-- C1 amended: for every key `kb` with a REMOVED DC in a newer base and a
LIVE DC (at any position p) in an older base, `eblob_disk_index_lookup` does
not miss: the tombstone masks only within its own base, the traversal
continues to the older base, and the older base's LIVE record is returned
(err = 0, data_offset = p). -/
theorem eblob_disk_index_lookup_tombstone_amended (kb : List Nat) (p : Nat) :
    eblob_disk_index_lookup (fun _ => [c1_newer kb, c1_older kb p]) ⟨kb⟩ =
      (0, some { data_offset := p, index_offset := 0, size := 5 },
        { loops := 2, no_sort := 0, search_on_disk := 2, bloom_null := 1,
          found_index_block := 1, no_block := 0, bsearch_reached := 1,
          bsearch_found := 1, additional_reads := 0 }) := by
  simp [eblob_disk_index_lookup, lookupGo, lookupAttempt, eblob_find_on_disk,
    eblob_index_blocks_search_nolock, eblob_index_blocks_search_nolock_bsearch_nobloom,
    c_bsearch, bsearchAux, eblob_bloom_get, eblob_key_range_cmp, eblob_find_expand,
    fwdScan, bwdScan, eblob_disk_control_sort, eblob_id_cmp_self,
    eblob_find_non_removed_callback, eblob_convert_disk_control, eblob_bswap64,
    BLOB_DISK_CTL_REMOVE, sizeof_disk_control, sizeof_index_block,
    eblob_disk_index_lookup_max_tries, eblob_search_stat_zero,
    c1_newer, c1_older, c1_tomb, c1_live, mkBctl, statZero, cfgEx,
    eblob_index_blocks_fill, eblob_bloom_size, eblob_bloom_func_num, fillLoop, fillInner,
    eblob_check_record, dc_removed, howmany, eblob_key_zero, eblob_dc_zero]

/-- C9: when a traversal observes a held base with index_fd < 0, the lookup
abandons that traversal and, if the pre-increment retry counter does not
exceed max_tries = 10, restarts from the newest base (the next schedule
snapshot) with the counter bumped; once the counter exceeds max_tries it
returns -EDEADLK instead of restarting. An invalidated observation arises
exactly from the head base having index_fd < 0, after the loops counter is
bumped. -/
theorem eblob_disk_index_lookup_retry_budget (key : eblob_key)
    (schedule : Nat → List eblob_base_ctl) (fuel tries attempt : Nat)
    (st st1 : eblob_disk_search_stat)
    (hobs : lookupAttempt key (schedule attempt) st = AttemptResult.invalidated st1) :
    (tries ≤ eblob_disk_index_lookup_max_tries →
      lookupGo key schedule (fuel + 1) tries attempt st =
        lookupGo key schedule fuel (tries + 1) (attempt + 1) st1) ∧
    (eblob_disk_index_lookup_max_tries < tries →
      lookupGo key schedule (fuel + 1) tries attempt st = (-35, none, st1)) := by
  constructor <;> intro h
  · simp only [lookupGo, hobs]
    rw [if_neg (by simp only [eblob_disk_index_lookup_max_tries] at h ⊢; omega)]
  · simp only [lookupGo, hobs]
    rw [if_pos (by simp only [eblob_disk_index_lookup_max_tries] at h ⊢; omega)]

/-- Witness for C9 at the first traversal of an always-invalidated schedule:
tries = 0 ≤ 10, so the lookup restarts from the newest base with tries = 1. -/
theorem eblob_disk_index_lookup_retry_budget_witness :
    (0 ≤ eblob_disk_index_lookup_max_tries →
      lookupGo ⟨[3]⟩ c9_schedule 12 0 0 eblob_search_stat_zero =
        lookupGo ⟨[3]⟩ c9_schedule 11 1 1 { eblob_search_stat_zero with loops := 1 }) ∧
    (eblob_disk_index_lookup_max_tries < 0 →
      lookupGo ⟨[3]⟩ c9_schedule 12 0 0 eblob_search_stat_zero =
        (-35, none, { eblob_search_stat_zero with loops := 1 })) :=
  eblob_disk_index_lookup_retry_budget ⟨[3]⟩ c9_schedule 11 0 0
    eblob_search_stat_zero { eblob_search_stat_zero with loops := 1 } (by decide)

theorem dc_le_total_lemma (d1 d2 : eblob_disk_control) : dc_le d1 d2 ∨ dc_le d2 d1 := by
  unfold dc_le eblob_disk_control_sort_with_flags
  rcases eblob_id_cmp_cases d1.key.id d2.key.id with h | h | h
  · left; rw [if_neg (by omega)]; omega
  · have h2 : eblob_id_cmp d2.key.id d1.key.id = 0 := by
      rw [eblob_id_cmp_antisymm]; omega
    rw [if_pos h, if_pos h2]
    by_cases r1 : dc_removed d1 <;> by_cases r2 : dc_removed d2 <;>
      simp [r1, r2] <;> omega
  · right
    have h2 : eblob_id_cmp d2.key.id d1.key.id = -1 := by
      rw [eblob_id_cmp_antisymm]; omega
    rw [if_neg (by omega)]; omega

theorem dc_le_trans_lemma (d1 d2 d3 : eblob_disk_control)
    (h1 : dc_le d1 d2) (h2 : dc_le d2 d3) : dc_le d1 d3 := by
  unfold dc_le eblob_disk_control_sort_with_flags at h1 h2 ⊢
  rcases eblob_id_cmp_cases d1.key.id d2.key.id with hc1 | hc1 | hc1
  · rcases eblob_id_cmp_cases d2.key.id d3.key.id with hc2 | hc2 | hc2
    · have := eblob_id_cmp_lt_trans d1.key.id d2.key.id d3.key.id hc1 hc2
      rw [if_neg (by omega)]; omega
    · have he : d2.key.id = d3.key.id := (eblob_id_cmp_eq_zero_iff _ _).mp hc2
      rw [if_neg (by rw [← he]; omega), ← he]; omega
    · rw [if_neg (by omega), hc2] at h2; exact absurd h2 (by decide)
  · have he : d1.key.id = d2.key.id := (eblob_id_cmp_eq_zero_iff _ _).mp hc1
    rcases eblob_id_cmp_cases d2.key.id d3.key.id with hc2 | hc2 | hc2
    · rw [if_neg (by rw [he]; omega), he]; omega
    · -- all three keys equal: tie-break transitivity on the REMOVED bit
      have he2 : d2.key.id = d3.key.id := (eblob_id_cmp_eq_zero_iff _ _).mp hc2
      rw [if_pos hc1] at h1
      rw [if_pos hc2] at h2
      rw [if_pos (by rw [he, he2]; exact eblob_id_cmp_self _)]
      by_cases r1 : dc_removed d1 <;> by_cases r2 : dc_removed d2 <;>
        by_cases r3 : dc_removed d3 <;>
        simp [r1, r2, r3] at h1 h2 ⊢ <;> omega
    · rw [if_neg (by omega), hc2] at h2; exact absurd h2 (by decide)
  · rw [if_neg (by omega), hc1] at h1; exact absurd h1 (by decide)

instance : IsTotal eblob_disk_control dc_le := ⟨dc_le_total_lemma⟩

instance : IsTrans eblob_disk_control dc_le := ⟨dc_le_trans_lemma⟩

theorem dc_le_key_le {d1 d2 : eblob_disk_control} (h : dc_le d1 d2) :
    eblob_id_cmp d1.key.id d2.key.id ≤ 0 := by
  unfold dc_le eblob_disk_control_sort_with_flags at h
  rcases eblob_id_cmp_cases d1.key.id d2.key.id with hc | hc | hc
  · omega
  · omega
  · rw [if_neg (by omega), hc] at h; exact absurd h (by decide)

theorem dc_le_removed_first {d1 d2 : eblob_disk_control} (h : dc_le d1 d2)
    (hk : eblob_id_cmp d1.key.id d2.key.id = 0) (h2 : dc_removed d2 = true) :
    dc_removed d1 = true := by
  unfold dc_le eblob_disk_control_sort_with_flags at h
  rw [if_pos hk] at h
  by_cases r1 : dc_removed d1
  · exact r1
  · rw [if_neg (by simp [r1]), if_pos (by simp [r1, h2])] at h
    exact absurd h (by decide)

/-- C6: after eblob_generate_sorted_index the published mapping is a
permutation of the source index, is monotone non-decreasing by key, and
within every run of equal keys every record following a LIVE record is LIVE
(equivalently: all REMOVED records precede all LIVE records). -/
theorem eblob_generate_sorted_index_sorted (src : List eblob_disk_control) :
    (eblob_generate_sorted_index src).Perm src ∧
    (∀ i j : Fin (eblob_generate_sorted_index src).length, i < j →
      eblob_id_cmp ((eblob_generate_sorted_index src).get i).key.id
        ((eblob_generate_sorted_index src).get j).key.id ≤ 0) ∧
    (∀ i j : Fin (eblob_generate_sorted_index src).length, i < j →
      eblob_id_cmp ((eblob_generate_sorted_index src).get i).key.id
        ((eblob_generate_sorted_index src).get j).key.id = 0 →
      dc_removed ((eblob_generate_sorted_index src).get j) = true →
      dc_removed ((eblob_generate_sorted_index src).get i) = true) := by
  have hsort : (eblob_generate_sorted_index src).Sorted dc_le :=
    List.sorted_insertionSort dc_le src
  refine ⟨List.perm_insertionSort dc_le src, ?_, ?_⟩
  · intro i j hij
    exact dc_le_key_le (hsort.rel_get_of_lt hij)
  · intro i j hij hk hrem
    exact dc_le_removed_first (hsort.rel_get_of_lt hij) hk hrem

/-- Witness for C6 at a concrete two-record index [LIVE [3], REMOVED [3]]:
the sort swaps them (tombstone first), and the conjuncts hold at i = 0,
j = 1. -/
theorem eblob_generate_sorted_index_sorted_witness :
    (eblob_generate_sorted_index [c1_live [3] 42, c1_tomb [3]]).Perm
      [c1_live [3] 42, c1_tomb [3]] ∧
    (∀ i j : Fin (eblob_generate_sorted_index [c1_live [3] 42, c1_tomb [3]]).length, i < j →
      eblob_id_cmp ((eblob_generate_sorted_index [c1_live [3] 42, c1_tomb [3]]).get i).key.id
        ((eblob_generate_sorted_index [c1_live [3] 42, c1_tomb [3]]).get j).key.id ≤ 0) ∧
    (∀ i j : Fin (eblob_generate_sorted_index [c1_live [3] 42, c1_tomb [3]]).length, i < j →
      eblob_id_cmp ((eblob_generate_sorted_index [c1_live [3] 42, c1_tomb [3]]).get i).key.id
        ((eblob_generate_sorted_index [c1_live [3] 42, c1_tomb [3]]).get j).key.id = 0 →
      dc_removed ((eblob_generate_sorted_index [c1_live [3] 42, c1_tomb [3]]).get j) = true →
      dc_removed ((eblob_generate_sorted_index [c1_live [3] 42, c1_tomb [3]]).get i) = true) :=
  eblob_generate_sorted_index_sorted [c1_live [3] 42, c1_tomb [3]]

theorem fwdScan_sound (recs : List eblob_disk_control) (probe : eblob_disk_control)
    (cb : eblob_disk_control → eblob_disk_control → Bool) :
    ∀ fuel idx st, recs.length < idx + fuel →
      ((∀ j r, (fwdScan recs probe cb fuel idx st).1 = some (j, r) →
          r = recAt recs j ∧ idx ≤ j ∧ j < recs.length ∧
          (∀ m, idx ≤ m → m ≤ j → KeyMatch recs probe m) ∧
          cb (recAt recs j) probe = true ∧
          (∀ m, idx ≤ m → m < j → cb (recAt recs m) probe = false)) ∧
       ((fwdScan recs probe cb fuel idx st).1 = none →
          ∀ j, idx ≤ j → j < recs.length →
            (∀ m, idx ≤ m → m ≤ j → KeyMatch recs probe m) →
            cb (recAt recs j) probe = false)) := by
  intro fuel
  induction fuel with
  | zero =>
    intro idx st hlen
    constructor
    · intro j r h; simp [fwdScan] at h
    · intro _ j hj1 hj2 _; omega
  | succ fuel ih =>
    intro idx st hlen
    cases hg : recs[idx]? with
    | none =>
      have hidx : recs.length ≤ idx := by simpa using List.getElem?_eq_none_iff.mp hg
      constructor
      · intro j r h; simp [fwdScan, hg] at h
      · intro _ j hj1 hj2 _; omega
    | some r0 =>
      have hidx : idx < recs.length := by
        by_contra hc
        rw [List.getElem?_eq_none_iff.mpr (by omega)] at hg
        cases hg
      have hr0 : recAt recs idx = r0 := by simp [recAt, List.getD, hg]
      by_cases hkey : eblob_disk_control_sort r0 probe = 0
      · by_cases hcb : cb r0 probe = true
        · have hres : (fwdScan recs probe cb (fuel + 1) idx st).1 = some (idx, r0) := by
            simp [fwdScan, hg, hkey, hcb]
          constructor
          · intro j r h
            rw [hres] at h
            injection h with h2
            injection h2 with h3 h4
            subst h3; subst h4
            refine ⟨hr0.symm, Nat.le_refl _, hidx, ?_, by rw [hr0]; exact hcb, ?_⟩
            · intro m hm1 hm2
              have : m = idx := by omega
              subst this
              unfold KeyMatch
              rw [hr0]; exact hkey
            · intro m hm1 hm2; omega
          · intro h; rw [hres] at h; cases h
        · have hres : fwdScan recs probe cb (fuel + 1) idx st =
              fwdScan recs probe cb fuel (idx + 1)
                { st with additional_reads := st.additional_reads + 1 } := by
            simp [fwdScan, hg, hkey, hcb]
          have ih2 := ih (idx + 1) { st with additional_reads := st.additional_reads + 1 }
            (by omega)
          have hcbf : cb r0 probe = false := by
            cases hcc : cb r0 probe
            · rfl
            · exact absurd hcc hcb
          constructor
          · intro j r h
            rw [hres] at h
            obtain ⟨hr, hj1, hj2, hrun, hcbj, hmin⟩ := ih2.1 j r h
            refine ⟨hr, by omega, hj2, ?_, hcbj, ?_⟩
            · intro m hm1 hm2
              rcases Nat.eq_or_lt_of_le hm1 with hm | hm
              · subst hm
                unfold KeyMatch
                rw [hr0]; exact hkey
              · exact hrun m (by omega) hm2
            · intro m hm1 hm2
              rcases Nat.eq_or_lt_of_le hm1 with hm | hm
              · subst hm; rw [hr0]; exact hcbf
              · exact hmin m (by omega) hm2
          · intro h
            rw [hres] at h
            intro j hj1 hj2 hrun
            rcases Nat.eq_or_lt_of_le hj1 with hj | hj
            · subst hj; rw [hr0]; exact hcbf
            · exact ih2.2 h j (by omega) hj2 (fun m hm1 hm2 => hrun m (by omega) hm2)
      · have hres : (fwdScan recs probe cb (fuel + 1) idx st).1 = none := by
          simp [fwdScan, hg, hkey]
        constructor
        · intro j r h; rw [hres] at h; cases h
        · intro _ j hj1 hj2 hrun
          exfalso
          apply hkey
          have := hrun idx (Nat.le_refl _) hj1
          unfold KeyMatch at this
          rw [hr0] at this
          exact this

theorem bwdScan_sound (recs : List eblob_disk_control) (probe : eblob_disk_control)
    (cb : eblob_disk_control → eblob_disk_control → Bool) :
    ∀ jj st, jj ≤ recs.length →
      ((∀ j r, (bwdScan recs probe cb jj st).1 = some (j, r) →
          r = recAt recs j ∧ j < jj ∧
          (∀ m, j ≤ m → m < jj → KeyMatch recs probe m) ∧
          cb (recAt recs j) probe = true ∧
          (∀ m, j < m → m < jj → cb (recAt recs m) probe = false)) ∧
       ((bwdScan recs probe cb jj st).1 = none →
          ∀ j, j < jj → (∀ m, j ≤ m → m < jj → KeyMatch recs probe m) →
            cb (recAt recs j) probe = false)) := by
  intro jj
  induction jj with
  | zero =>
    intro st hlen
    constructor
    · intro j r h; simp [bwdScan] at h
    · intro _ j hj _; omega
  | succ jj ih =>
    intro st hlen
    have hjj : jj < recs.length := by omega
    cases hg : recs[jj]? with
    | none =>
      exfalso
      exact absurd (List.getElem?_eq_none_iff.mp hg) (by omega)
    | some r0 =>
      have hr0 : recAt recs jj = r0 := by simp [recAt, List.getD, hg]
      by_cases hkey : eblob_disk_control_sort r0 probe = 0
      · by_cases hcb : cb r0 probe = true
        · have hres : (bwdScan recs probe cb (jj + 1) st).1 = some (jj, r0) := by
            simp [bwdScan, hg, hkey, hcb]
          constructor
          · intro j r h
            rw [hres] at h
            injection h with h2
            injection h2 with h3 h4
            subst h3; subst h4
            refine ⟨hr0.symm, by omega, ?_, by rw [hr0]; exact hcb, ?_⟩
            · intro m hm1 hm2
              have : m = jj := by omega
              subst this
              unfold KeyMatch
              rw [hr0]; exact hkey
            · intro m hm1 hm2; omega
          · intro h; rw [hres] at h; cases h
        · have hcbf : cb r0 probe = false := by
            cases hcc : cb r0 probe
            · rfl
            · exact absurd hcc hcb
          have hres : bwdScan recs probe cb (jj + 1) st =
              bwdScan recs probe cb jj
                { st with additional_reads := st.additional_reads + 1 } := by
            simp [bwdScan, hg, hkey, hcb]
          have ih2 := ih { st with additional_reads := st.additional_reads + 1 } (by omega)
          constructor
          · intro j r h
            rw [hres] at h
            obtain ⟨hr, hj1, hrun, hcbj, hmin⟩ := ih2.1 j r h
            refine ⟨hr, by omega, ?_, hcbj, ?_⟩
            · intro m hm1 hm2
              rcases Nat.lt_or_ge m jj with hm | hm
              · exact hrun m hm1 hm
              · have : m = jj := by omega
                subst this
                unfold KeyMatch
                rw [hr0]; exact hkey
            · intro m hm1 hm2
              rcases Nat.lt_or_ge m jj with hm | hm
              · exact hmin m hm1 hm
              · have : m = jj := by omega
                subst this; rw [hr0]; exact hcbf
          · intro h
            rw [hres] at h
            intro j hj hrun
            rcases Nat.lt_or_ge j jj with hjlt | hjge
            · exact ih2.2 h j hjlt (fun m hm1 hm2 => hrun m hm1 (by omega))
            · have : j = jj := by omega
              subst this; rw [hr0]; exact hcbf
      · have hres : (bwdScan recs probe cb (jj + 1) st).1 = none := by
          simp [bwdScan, hg, hkey]
        constructor
        · intro j r h; rw [hres] at h; cases h
        · intro _ j hj hrun
          exfalso
          apply hkey
          have := hrun jj (by omega) (by omega)
          unfold KeyMatch at this
          rw [hr0] at this
          exact this

/-- C5: after the intra-block binary search hit, eblob_find_on_disk scans
forward from the hit while key equality holds, returning the first
callback-accepted record; if the forward scan exhausts the equal-key run
without acceptance it scans backward from hit - 1 while key equality holds,
returning the first accepted record; if both directions exhaust, the search
misses. Stated over eblob_find_expand, the expansion phase invoked by
eblob_find_on_disk on a binary-search hit. -/
theorem eblob_find_expand_linear_expansion
    (recs : List eblob_disk_control) (probe : eblob_disk_control)
    (cb : eblob_disk_control → eblob_disk_control → Bool)
    (hit : Nat) (st : eblob_disk_search_stat) (hhit : hit < recs.length) :
    (∀ j r, (eblob_find_expand recs probe cb hit st).1 = some (j, r) →
       r = recAt recs j ∧
       (FwdAccepts recs probe cb hit j ∨
        (FwdExhausted recs probe cb hit ∧ BwdAccepts recs probe cb hit j))) ∧
    ((eblob_find_expand recs probe cb hit st).1 = none →
       FwdExhausted recs probe cb hit ∧ BwdExhausted recs probe cb hit) := by
  have hf := fwdScan_sound recs probe cb (recs.length + 1) hit st (by omega)
  unfold eblob_find_expand
  rcases hfw : fwdScan recs probe cb (recs.length + 1) hit st with ⟨o, st1⟩
  cases o with
  | some res =>
    constructor
    · intro j r h
      simp only at h
      have hres : (fwdScan recs probe cb (recs.length + 1) hit st).1 = some (j, r) := by
        rw [hfw]; exact h
      obtain ⟨hr, hj1, hj2, hrun, hcbj, hmin⟩ := hf.1 j r hres
      exact ⟨hr, Or.inl ⟨hj1, hj2, hrun, hcbj, hmin⟩⟩
    · intro h; simp only at h; cases h
  | none =>
    have hfe : FwdExhausted recs probe cb hit := by
      intro j hj1 hj2 hrun
      exact hf.2 (by rw [hfw]) j hj1 hj2 hrun
    have hb := bwdScan_sound recs probe cb hit st1 (by omega)
    simp only
    constructor
    · intro j r h
      obtain ⟨hr, hj1, hrun, hcbj, hmin⟩ := hb.1 j r h
      exact ⟨hr, Or.inr ⟨hfe, hj1, hrun, hcbj, hmin⟩⟩
    · intro h
      refine ⟨hfe, ?_⟩
      intro j hj hrun
      exact hb.2 h j hj hrun

/-- Witness for C5 at the two-record equal-key run [REMOVED [3], LIVE [3]]
with the hit at index 0 and the non-removed callback. -/
theorem eblob_find_expand_linear_expansion_witness :
    (∀ j r, (eblob_find_expand c5_recs probe3 eblob_find_non_removed_callback 0
        eblob_search_stat_zero).1 = some (j, r) →
       r = recAt c5_recs j ∧
       (FwdAccepts c5_recs probe3 eblob_find_non_removed_callback 0 j ∨
        (FwdExhausted c5_recs probe3 eblob_find_non_removed_callback 0 ∧
         BwdAccepts c5_recs probe3 eblob_find_non_removed_callback 0 j))) ∧
    ((eblob_find_expand c5_recs probe3 eblob_find_non_removed_callback 0
        eblob_search_stat_zero).1 = none →
       FwdExhausted c5_recs probe3 eblob_find_non_removed_callback 0 ∧
       BwdExhausted c5_recs probe3 eblob_find_non_removed_callback 0) :=
  eblob_find_expand_linear_expansion c5_recs probe3 eblob_find_non_removed_callback 0
    eblob_search_stat_zero (by decide)

theorem fillInner_sk_stable (cfg : eblob_config) (recs : List eblob_disk_control) :
    ∀ fuel i offset sk s o2 sk2 s2, 1 ≤ i →
      fillInner cfg recs fuel i offset sk s = Except.ok (o2, sk2, s2) → sk2 = sk := by
  intro fuel
  induction fuel with
  | zero =>
    intro i offset sk s o2 sk2 s2 hi h
    simp only [fillInner] at h
    injection h with h2
    injection h2 with h3 h4
    injection h4 with h5 h6
    exact h5.symm
  | succ fuel ih =>
    intro i offset sk s o2 sk2 s2 hi h
    cases hg : recs[offset]? with
    | none =>
      simp only [fillInner, List.get?_eq_getElem?, hg] at h
      injection h with h2
      injection h2 with h3 h4
      injection h4 with h5 h6
      exact h5.symm
    | some dc =>
      simp only [fillInner, List.get?_eq_getElem?, hg] at h
      by_cases hchk : eblob_check_record dc ≠ 0
      · rw [if_pos hchk] at h
        by_cases habort : s.err_count > EBLOB_BLOB_INDEX_CORRUPT_MAX ∨ i = 0 ∨
            i = cfg.index_block_size - 1
        · rw [if_pos habort] at h; cases h
        · rw [if_neg habort] at h
          exact ih (i + 1) (offset + 1) sk _ o2 sk2 s2 (by omega) h
      · rw [if_neg hchk] at h
        have hsk1 : (if i = 0 then dc.key else sk) = sk := if_neg (by omega)
        rw [hsk1] at h
        exact ih (i + 1) (offset + 1) sk _ o2 sk2 s2 (by omega) h

theorem fillInner_ok_props (cfg : eblob_config) (recs : List eblob_disk_control) :
    ∀ fuel i offset sk s o2 sk2 s2,
      fillInner cfg recs fuel i offset sk s = Except.ok (o2, sk2, s2) →
      offset ≤ o2 ∧
      (offset < recs.length → o2 ≤ recs.length) ∧
      (o2 = offset → sk2 = sk ∧ s2 = s) ∧
      (offset < o2 → ∃ h : o2 - 1 < recs.length,
          s2.dcVar = recs.get ⟨o2 - 1, h⟩) ∧
      (offset < recs.length → 1 ≤ fuel → offset < o2) := by
  intro fuel
  induction fuel with
  | zero =>
    intro i offset sk s o2 sk2 s2 h
    simp only [fillInner] at h
    injection h with h2
    injection h2 with h3 h4
    injection h4 with h5 h6
    subst h3
    refine ⟨Nat.le_refl _, fun _ => by omega, fun _ => ⟨h5.symm, h6.symm⟩,
      fun hlt => absurd hlt (by omega), fun _ hf => absurd hf (by omega)⟩
  | succ fuel ih =>
    intro i offset sk s o2 sk2 s2 h
    cases hg : recs[offset]? with
    | none =>
      have hlen : recs.length ≤ offset := List.getElem?_eq_none_iff.mp hg
      simp only [fillInner, List.get?_eq_getElem?, hg] at h
      injection h with h2
      injection h2 with h3 h4
      injection h4 with h5 h6
      subst h3
      refine ⟨Nat.le_refl _, fun hc => by omega, fun _ => ⟨h5.symm, h6.symm⟩,
        fun hlt => absurd hlt (by omega), fun hc => absurd hc (by omega)⟩
    | some dc =>
      have hoff : offset < recs.length := by
        by_contra hc
        rw [List.getElem?_eq_none_iff.mpr (by omega)] at hg
        cases hg
      have hdc : dc = recs.get ⟨offset, hoff⟩ := by
        have := List.getElem?_eq_some_iff.mp hg
        obtain ⟨h1, h2⟩ := this
        rw [List.get_eq_getElem]
        exact h2.symm
      simp only [fillInner, List.get?_eq_getElem?, hg] at h
      by_cases hchk : eblob_check_record dc ≠ 0
      · rw [if_pos hchk] at h
        by_cases habort : s.err_count > EBLOB_BLOB_INDEX_CORRUPT_MAX ∨ i = 0 ∨
            i = cfg.index_block_size - 1
        · rw [if_pos habort] at h; cases h
        · rw [if_neg habort] at h
          obtain ⟨p1, p2, p3, p4, p5⟩ := ih (i + 1) (offset + 1) sk _ o2 sk2 s2 h
          refine ⟨by omega, fun _ => ?_, fun he => by omega, fun _ => ?_, fun _ _ => by omega⟩
          · rcases Nat.lt_or_ge (offset + 1) recs.length with hc | hc
            · exact p2 hc
            · have : o2 = offset + 1 := by
                have := p1
                by_contra hne
                have hlt : offset + 1 < o2 := by omega
                obtain ⟨hb, _⟩ := p4 hlt
                omega
              omega
          · rcases Nat.lt_or_ge (offset + 1) o2 with hc | hc
            · exact p4 hc
            · have he : o2 = offset + 1 := by omega
              obtain ⟨hsk, hs⟩ := p3 he
              refine ⟨by omega, ?_⟩
              rw [hs]
              simp only [he]
              rw [hdc]
              congr 1
      · rw [if_neg hchk] at h
        obtain ⟨p1, p2, p3, p4, p5⟩ := ih (i + 1) (offset + 1) _ _ o2 sk2 s2 h
        refine ⟨by omega, fun _ => ?_, fun he => by omega, fun _ => ?_, fun _ _ => by omega⟩
        · rcases Nat.lt_or_ge (offset + 1) recs.length with hc | hc
          · exact p2 hc
          · have : o2 = offset + 1 := by
              by_contra hne
              have hlt : offset + 1 < o2 := by omega
              obtain ⟨hb, _⟩ := p4 hlt
              omega
            omega
        · rcases Nat.lt_or_ge (offset + 1) o2 with hc | hc
          · exact p4 hc
          · have he : o2 = offset + 1 := by omega
            obtain ⟨hsk, hs⟩ := p3 he
            subst he
            refine ⟨by omega, ?_⟩
            rw [hs]
            split <;> (show dc = _; rw [hdc]; try rfl)

theorem fillInner_start_key (cfg : eblob_config) (recs : List eblob_disk_control)
    (fuel offset : Nat) (sk : eblob_key) (s : FillState)
    (o2 : Nat) (sk2 : eblob_key) (s2 : FillState)
    (h : fillInner cfg recs fuel 0 offset sk s = Except.ok (o2, sk2, s2))
    (hoff : offset < recs.length) (hfuel : 1 ≤ fuel) :
    sk2 = (recs.get ⟨offset, hoff⟩).key := by
  cases fuel with
  | zero => omega
  | succ fuel =>
    cases hg : recs[offset]? with
    | none =>
      exact absurd (List.getElem?_eq_none_iff.mp hg) (by omega)
    | some dc =>
      have hdc : dc = recs.get ⟨offset, hoff⟩ := by
        obtain ⟨h1, h2⟩ := List.getElem?_eq_some_iff.mp hg
        rw [List.get_eq_getElem]
        exact h2.symm
      simp only [fillInner, List.get?_eq_getElem?, hg] at h
      by_cases hchk : eblob_check_record dc ≠ 0
      · rw [if_pos hchk, if_pos (Or.inr (Or.inl trivial))] at h
        cases h
      · rw [if_neg hchk] at h
        have := fillInner_sk_stable cfg recs fuel (0 + 1) (offset + 1) dc.key _ o2 sk2 s2
          (by omega) h
        rw [this, hdc]

theorem fillLoop_blocks_spec (cfg : eblob_config) (recs : List eblob_disk_control) :
    ∀ fuel offset s acc blocks s2,
      fillLoop cfg recs fuel offset s acc = Except.ok (blocks, s2) →
      ∀ blk, blk ∈ blocks → blk ∈ acc ∨
        ∃ a b, blk.start_offset = a * sizeof_disk_control ∧
          blk.end_offset = b * sizeof_disk_control ∧
          (a < b → b ≤ recs.length ∧
            (∃ ha : a < recs.length, blk.start_key = (recs.get ⟨a, ha⟩).key) ∧
            (∃ hb : b - 1 < recs.length, blk.end_key = (recs.get ⟨b - 1, hb⟩).key)) := by
  intro fuel
  induction fuel with
  | zero =>
    intro offset s acc blocks s2 h blk hblk
    simp only [fillLoop] at h
    by_cases hoff : offset < recs.length
    · rw [if_pos hoff] at h; cases h
    · rw [if_neg hoff] at h
      injection h with h2
      injection h2 with h3 h4
      subst h3
      exact Or.inl hblk
  | succ fuel ih =>
    intro offset s acc blocks s2 h blk hblk
    simp only [fillLoop] at h
    by_cases hoff : offset < recs.length
    · rw [if_pos hoff] at h
      cases hI : fillInner cfg recs cfg.index_block_size 0 offset eblob_key_zero s with
      | error e => rw [hI] at h; cases h
      | ok val =>
        rcases val with ⟨o2, sk, s2blk⟩
        rw [hI] at h
        have hmem := ih o2 s2blk _ blocks s2 h blk hblk
        rcases hmem with hmem | hgood
        · rcases List.mem_append.mp hmem with hacc | hnew
          · exact Or.inl hacc
          · right
            have hblkeq : blk =
                { start_key := sk, end_key := s2blk.dcVar.key,
                  start_offset := offset * sizeof_disk_control,
                  end_offset := o2 * sizeof_disk_control } := by
              simpa using hnew
            subst hblkeq
            refine ⟨offset, o2, rfl, rfl, fun hab => ?_⟩
            obtain ⟨p1, p2, p3, p4, p5⟩ :=
              fillInner_ok_props cfg recs cfg.index_block_size 0 offset
                eblob_key_zero s o2 sk s2blk hI
            refine ⟨p2 hoff, ?_, ?_⟩
            · rcases Nat.eq_zero_or_pos cfg.index_block_size with hbs | hbs
              · exfalso
                rw [hbs] at hI
                simp only [fillInner] at hI
                injection hI with h2
                injection h2 with h3 h4
                omega
              · exact ⟨hoff, fillInner_start_key cfg recs cfg.index_block_size offset
                  eblob_key_zero s o2 sk s2blk hI hoff hbs⟩
            · obtain ⟨hb, hdv⟩ := p4 hab
              exact ⟨hb, by rw [hdv]⟩
        · exact Or.inr hgood
    · rw [if_neg hoff] at h
      injection h with h2
      injection h2 with h3 h4
      subst h3
      exact Or.inl hblk

theorem eblob_index_blocks_fill_success_blocks (bctl0 : eblob_base_ctl)
    (blocks : List eblob_index_block)
    (hblocks : (eblob_index_blocks_fill bctl0 true true).bctl.index_blocks = some blocks) :
    ∃ s2, fillLoop bctl0.back_cfg bctl0.sort_records (bctl0.sort_records.length + 1) 0
      { bloom := [], err_count := 0, corrupted := bctl0.stat.index_corrupted_entries,
        removed := 0, removed_size := 0, dcVar := eblob_dc_zero } [] =
      Except.ok (blocks, s2) := by
  simp only [eblob_index_blocks_fill] at hblocks
  rw [if_neg (by simp)] at hblocks
  rw [if_neg (by simp)] at hblocks
  cases hL : fillLoop bctl0.back_cfg bctl0.sort_records (bctl0.sort_records.length + 1) 0
      { bloom := [], err_count := 0, corrupted := bctl0.stat.index_corrupted_entries,
        removed := 0, removed_size := 0, dcVar := eblob_dc_zero } [] with
  | error e =>
    rcases e with ⟨e1, sErr⟩
    rw [hL] at hblocks
    simp [eblob_index_blocks_destroy] at hblocks
  | ok val =>
    rcases val with ⟨blocksL, sOk⟩
    rw [hL] at hblocks
    simp only at hblocks
    injection hblocks with h2
    subst h2
    exact ⟨sOk, rfl⟩

theorem sorted_records_key_le (recs : List eblob_disk_control)
    (hs : recs.Pairwise (fun d1 d2 => eblob_id_cmp d1.key.id d2.key.id ≤ 0))
    (i j : Nat) (hij : i ≤ j) (hj : j < recs.length) :
    eblob_id_cmp (recs.get ⟨i, by omega⟩).key.id (recs.get ⟨j, hj⟩).key.id ≤ 0 := by
  rcases Nat.eq_or_lt_of_le hij with he | hlt
  · subst he
    rw [eblob_id_cmp_self]
  · have := List.pairwise_iff_getElem.mp hs i j (by omega) hj hlt
    simpa [List.get_eq_getElem] using this

/-- C7: after a successful eblob_index_blocks_fill over a sorted index, every
disk-control record whose byte offset lies in a block's
[start_offset, end_offset) satisfies start_key ≤ key ≤ end_key. -/
theorem eblob_index_blocks_fill_range_containment
    (bctl0 : eblob_base_ctl)
    (hsorted : bctl0.sort_records.Pairwise
      (fun d1 d2 => eblob_id_cmp d1.key.id d2.key.id ≤ 0))
    (blocks : List eblob_index_block)
    (hret : (eblob_index_blocks_fill bctl0 true true).ret = 0)
    (hblocks : (eblob_index_blocks_fill bctl0 true true).bctl.index_blocks = some blocks)
    (blk : eblob_index_block) (hblk : blk ∈ blocks)
    (j : Nat) (hj : j < bctl0.sort_records.length)
    (h1 : blk.start_offset ≤ j * sizeof_disk_control)
    (h2 : j * sizeof_disk_control < blk.end_offset) :
    eblob_id_cmp blk.start_key.id (bctl0.sort_records.get ⟨j, hj⟩).key.id ≤ 0 ∧
    eblob_id_cmp (bctl0.sort_records.get ⟨j, hj⟩).key.id blk.end_key.id ≤ 0 := by
  obtain ⟨s2, hL⟩ := eblob_index_blocks_fill_success_blocks bctl0 blocks hblocks
  have hspec := fillLoop_blocks_spec bctl0.back_cfg bctl0.sort_records
    (bctl0.sort_records.length + 1) 0 _ [] blocks s2 hL blk hblk
  rcases hspec with hmem | ⟨a, b, hsa, hsb, hab⟩
  · cases hmem
  · rw [hsa] at h1
    rw [hsb] at h2
    have hsz : (0 : Nat) < sizeof_disk_control := by decide
    have haj : a ≤ j := by
      by_contra hc
      push_neg at hc
      have : j * sizeof_disk_control < a * sizeof_disk_control :=
        (Nat.mul_lt_mul_right hsz).mpr hc
      omega
    have hjb : j < b := by
      by_contra hc
      push_neg at hc
      have : b * sizeof_disk_control ≤ j * sizeof_disk_control :=
        Nat.mul_le_mul_right _ hc
      omega
    obtain ⟨hble, ⟨ha, hstart⟩, ⟨hb, hend⟩⟩ := hab (by omega)
    constructor
    · rw [hstart]
      exact sorted_records_key_le bctl0.sort_records hsorted a j haj hj
    · rw [hend]
      have := sorted_records_key_le bctl0.sort_records hsorted j (b - 1) (by omega) hb
      exact this

/-- Witness for C7: the sorted 10-record base `c7_base` (blocks of 4), its
first block, and the record at index 1. -/
theorem eblob_index_blocks_fill_range_containment_witness :
    eblob_id_cmp
        (((eblob_index_blocks_fill c7_base true true).bctl.index_blocks.getD []).getD 0
            { start_key := eblob_key_zero, end_key := eblob_key_zero,
              start_offset := 0, end_offset := 0 }).start_key.id
        (c7_base.sort_records.get ⟨1, by decide⟩).key.id ≤ 0 ∧
    eblob_id_cmp (c7_base.sort_records.get ⟨1, by decide⟩).key.id
        (((eblob_index_blocks_fill c7_base true true).bctl.index_blocks.getD []).getD 0
            { start_key := eblob_key_zero, end_key := eblob_key_zero,
              start_offset := 0, end_offset := 0 }).end_key.id ≤ 0 :=
  eblob_index_blocks_fill_range_containment c7_base (by decide)
    ((eblob_index_blocks_fill c7_base true true).bctl.index_blocks.getD [])
    (by decide) (by decide)
    (((eblob_index_blocks_fill c7_base true true).bctl.index_blocks.getD []).getD 0
        { start_key := eblob_key_zero, end_key := eblob_key_zero,
          start_offset := 0, end_offset := 0 })
    (by decide) 1 (by decide) (by decide) (by decide)
